import Mathlib

/-!
Shallow embedding of `main.py` from the `recursive_configuration` repository,
together with proofs about its variant-resolution, specialization, loading and
parsing routines.

Python dictionaries are modelled as insertion-ordered association lists with
unique keys (`dictInsert` reproduces Python's "assign to key" semantics:
updating an existing key keeps its position, a new key is appended).
Exceptions are modelled with `Except String`.
-/

deriving instance DecidableEq for Except

namespace RecConfig

/-- Modelled from the spec: `Feature` is an opaque handle from the external
flamapy feature model, "used only as a lookup key and selection indicator"
and "referenced by name". -/
structure Feature where
  name : String
deriving DecidableEq

/-- Modelled from the spec: the external feature model is only consulted
through `getFeatureByName`; we model it as the list of its features. -/
abbrev FeatureModel := List Feature

/-- Lookup in a Python dict: first (unique) matching key. -/
def dictLookup {α β : Type} [DecidableEq α] (k : α) : List (α × β) → Option β
  | [] => none
  | (k', v) :: rest => if k' = k then some v else dictLookup k rest

/-- Assignment `d[k] = v` on a Python dict: replace in place if the key
exists, else append. -/
def dictInsert {α β : Type} [DecidableEq α] (k : α) (v : β) : List (α × β) → List (α × β)
  | [] => [(k, v)]
  | (k', v') :: rest => if k' = k then (k, v) :: rest else (k', v') :: dictInsert k v rest

/-- Modelled from the spec: a flamapy `Configuration` carries `elements`,
a mapping from `Feature` to a selected boolean. -/
structure Configuration where
  elements : List (Feature × Bool)
deriving DecidableEq

/-- Modelled from the spec (the class lives in `variation_point.py`, not under
`src/`): a `Variant` is `{identifier: string, value: string|null}`. -/
structure Variant where
  identifier : String
  value : Option String
deriving DecidableEq

/-- Modelled from the spec (the class lives in `variation_point.py`, not under
`src/`): a `VariationPoint` is `{feature, handler, variants}`; `main.py`
constructs it as `VariationPoint(feature=..., handler=...)` with an initially
empty variant list. -/
structure VariationPoint where
  feature : Feature
  handler : String
  variants : List Variant
deriving DecidableEq

/-- One XML feature record of a configuration file: a `name` attribute and
optional `automatic` / `manual` attributes (`parse_configuration`). -/
structure ConfigRecord where
  name : String
  automatic : Option String
  manual : Option String
deriving DecidableEq

/-- One CSV row of the mapping-model file, with columns
`VariationPointFeature`, `Handler`, `VariantIdentifier`, `VariantValue`. -/
structure MappingRow where
  vp_feature : String
  vp_handler : String
  variant_feature : String
  variant_value : String
deriving DecidableEq

/-- `get_feature_from_fm` (main.py lines 51-57): `fm.get_feature_by_name` and
raise when the feature does not exist. -/
def get_feature_from_fm (feature_name : String) (fm : FeatureModel) : Except String Feature :=
  match (fm : List Feature).find? (fun f => f.name == feature_name) with
  | some f => .ok f
  | none => .error ("The feature " ++ feature_name ++ " does not exist in the feature model.")

/-- Loop body of `parse_configuration` (main.py lines 66-76): compute the
selection boolean from the `automatic`/`manual` attributes, resolve the
feature name, and assign into the `features` dict. -/
def parse_configuration_aux (fm : FeatureModel) :
    List ConfigRecord → List (Feature × Bool) → Except String (List (Feature × Bool))
  | [], features => .ok features
  | r :: rest, features =>
    let feature_selected : Bool :=
      match r.automatic with
      | some a => a == "selected"
      | none =>
        match r.manual with
        | some m => m == "selected"
        | none => false
    match get_feature_from_fm r.name fm with
    | .error e => .error e
    | .ok feature_object =>
      parse_configuration_aux fm rest (dictInsert feature_object feature_selected features)

/-- `parse_configuration` (main.py lines 60-77), with the XML file abstracted
to its ordered list of feature records. -/
def parse_configuration (records : List ConfigRecord) (fm : FeatureModel) :
    Except String Configuration :=
  match parse_configuration_aux fm records [] with
  | .error e => .error e
  | .ok features => .ok ⟨features⟩

/-- The slice `identifier[:identifier.index(c)]`: everything before the first
occurrence of the character. -/
def sliceBeforeChar (c : Char) (s : String) : String :=
  ⟨s.data.takeWhile (fun d => d ≠ c)⟩

/-- Python `c in s` membership of a character in a string. -/
def strContainsChar (c : Char) (s : String) : Bool :=
  s.data.contains c

/-- Loop body of `load_mapping_model` (main.py lines 97-113): pick the dict
key (a dotted `VariantIdentifier` unconditionally creates a fresh
`VariationPoint` under the identifier; otherwise the key is
`VariationPointFeature`, created on first occurrence), normalize the sentinel
value `"-"` to null, and append the variant to the keyed point. -/
def load_mapping_model_aux (fm : FeatureModel) :
    List MappingRow → List (String × VariationPoint) → Except String (List (String × VariationPoint))
  | [], variation_points => .ok variation_points
  | row :: rest, variation_points =>
    let step : Except String (String × List (String × VariationPoint)) :=
      if strContainsChar '.' row.variant_feature then
        match get_feature_from_fm row.vp_feature fm with
        | .error e => .error e
        | .ok f =>
          .ok (row.variant_feature,
               dictInsert row.variant_feature ⟨f, row.vp_handler, []⟩ variation_points)
      else if (dictLookup row.vp_feature variation_points).isNone then
        match get_feature_from_fm row.vp_feature fm with
        | .error e => .error e
        | .ok f =>
          .ok (row.vp_feature,
               dictInsert row.vp_feature ⟨f, row.vp_handler, []⟩ variation_points)
      else
        .ok (row.vp_feature, variation_points)
    match step with
    | .error e => .error e
    | .ok (key, vps) =>
      let variant_value : Option String :=
        if row.variant_value = "-" then none else some row.variant_value
      let variant : Variant := ⟨row.variant_feature, variant_value⟩
      match dictLookup key vps with
      | some vp => load_mapping_model_aux fm rest
          (dictInsert key ⟨vp.feature, vp.handler, vp.variants ++ [variant]⟩ vps)
      | none => .error "KeyError"

/-- `load_mapping_model` (main.py lines 92-114), with the CSV file abstracted
to its ordered list of rows. -/
def load_mapping_model (fm : FeatureModel) (rows : List MappingRow) :
    Except String (List (String × VariationPoint)) :=
  load_mapping_model_aux fm rows []

/-- Fueled core of Python's `str.replace`: replace every non-overlapping
occurrence of `pat` in the character list, scanning left to right. The fuel
is the length of the scanned list, which suffices whenever `pat` is nonempty
(the program only ever calls `replace` with the nonempty pattern `"Expr"`). -/
def pyReplaceAux (pat repl : List Char) : Nat → List Char → List Char
  | _, [] => []
  | 0, s => s
  | fuel + 1, c :: cs =>
    if pat.isPrefixOf (c :: cs) then
      repl ++ pyReplaceAux pat repl fuel ((c :: cs).drop pat.length)
    else
      c :: pyReplaceAux pat repl fuel cs

/-- Python `s.replace(pat, repl)` for a nonempty pattern. -/
def pyReplace (s pat repl : String) : String :=
  ⟨pyReplaceAux pat.data repl.data s.data.length s.data⟩

/-- Inner variant loop of `mapping_model_by_configurations` (main.py lines
125-126): `variant.value = variant.value.replace('Expr', f'Expr{i}')` for each
variant in order. Calling `.replace` on a null value raises `AttributeError`,
modelled as an error at the first null-valued variant. -/
def replaceVariants (i : Nat) : List Variant → Except String (List Variant)
  | [] => .ok []
  | v :: rest =>
    match v.value with
    | none => .error "AttributeError: NoneType object has no attribute replace"
    | some s =>
      match replaceVariants i rest with
      | .error e => .error e
      | .ok rest' =>
        .ok (⟨v.identifier, some (pyReplace s "Expr" ("Expr" ++ toString i))⟩ :: rest')

/-- Per-variation-point body of `mapping_model_by_configurations` (main.py
lines 123-126): if the handler is `"Expr"`, rename it to `handler + (i-1)`
for every index except 0 and rewrite each variant value's `"Expr"` substrings
to `"Expr" + i`; otherwise leave the point untouched. -/
def specializeVP (i : Nat) (vp : VariationPoint) : Except String VariationPoint :=
  if vp.handler = "Expr" then
    match replaceVariants i vp.variants with
    | .error e => .error e
    | .ok variants' =>
      .ok ⟨vp.feature, if i ≠ 0 then vp.handler ++ toString (i - 1) else vp.handler, variants'⟩
  else
    .ok vp

/-- The `for k, v in new_mapping_model.items()` loop (main.py lines 122-126)
applied to the deep copy of the mapping model for configuration index `i`. -/
def specializeModel (i : Nat) :
    List (String × VariationPoint) → Except String (List (String × VariationPoint))
  | [] => .ok []
  | (k, vp) :: rest =>
    match specializeVP i vp with
    | .error e => .error e
    | .ok vp' =>
      match specializeModel i rest with
      | .error e => .error e
      | .ok rest' => .ok ((k, vp') :: rest')

/-- The `for i, config in enumerate(configurations)` loop of
`mapping_model_by_configurations` (main.py lines 119-127), carrying the
running index. The loop body reads only the index, never the configuration
itself (the `rec_features` binding on line 120 is computed and discarded, so
it is omitted here as dead code). -/
def mapping_model_by_configurations_aux (mapping_model : List (String × VariationPoint)) :
    Nat → List Configuration → Except String (List (List (String × VariationPoint)))
  | _, [] => .ok []
  | i, _ :: rest =>
    match specializeModel i mapping_model with
    | .error e => .error e
    | .ok m' =>
      match mapping_model_by_configurations_aux mapping_model (i + 1) rest with
      | .error e => .error e
      | .ok ms => .ok (m' :: ms)

/-- `mapping_model_by_configurations` (main.py lines 117-128): one specialized
deep copy of the mapping model per configuration index. -/
def mapping_model_by_configurations (mapping_model : List (String × VariationPoint))
    (configurations : List Configuration) :
    Except String (List (List (String × VariationPoint))) :=
  mapping_model_by_configurations_aux mapping_model 0 configurations

/-- `is_selected_in_a_configuration` (main.py lines 131-132):
`any(feature in config.elements and config.elements[feature] for config in
configurations)`. -/
def is_selected_in_a_configuration (feature : Feature) (configurations : List Configuration) :
    Bool :=
  configurations.any (fun config =>
    match dictLookup feature config.elements with
    | some b => b
    | none => false)

/-- `get_attribute_value` (main.py lines 135-139): return the value from the
first attribute dict containing the identifier; `None` when none does. -/
def get_attribute_value (identifier : String) : List (List (String × String)) → Option String
  | [] => none
  | attributes_dict :: rest =>
    match dictLookup identifier attributes_dict with
    | some v => some v
    | none => get_attribute_value identifier rest

/-- Loop of `get_variant_value` (main.py lines 144-154): for each variant in
order, split a dotted identifier into guard feature and attribute lookup
(otherwise guard = identifier, value = the variant's own value), resolve the
guard feature, and return the value of the first variant whose guard feature
is selected in a configuration; `None` when the loop falls through. -/
def get_variant_value_aux (fm : FeatureModel) (configurations : List Configuration)
    (attributes : List (List (String × String))) :
    List Variant → Except String (Option String)
  | [] => .ok none
  | variant :: rest =>
    let fv : String × Option String :=
      if strContainsChar '.' variant.identifier then
        (sliceBeforeChar '.' variant.identifier, get_attribute_value variant.identifier attributes)
      else
        (variant.identifier, variant.value)
    match get_feature_from_fm fv.1 fm with
    | .error e => .error e
    | .ok feature =>
      if is_selected_in_a_configuration feature configurations then
        .ok fv.2
      else
        get_variant_value_aux fm configurations attributes rest

/-- `get_variant_value` (main.py lines 142-154). -/
def get_variant_value (fm : FeatureModel) (variation_point : VariationPoint)
    (configurations : List Configuration) (attributes : List (List (String × String))) :
    Except String (Option String) :=
  get_variant_value_aux fm configurations attributes variation_point.variants

/-- The value attached to a template handler by `build_template_maps`: Python
stores either the boolean `True` or the (possibly null) string returned by
`get_variant_value`. -/
inductive TemplateValue where
  | bool : Bool → TemplateValue
  | resolved : Option String → TemplateValue
deriving DecidableEq

/-- Loop of `build_template_maps` (main.py lines 178-186), mirroring the
Python nesting: only handlers without `.`, only variation points whose
governing feature is selected in a configuration; empty variant list or a
first variant with identifier `"-"` stores `True`, otherwise the resolved
variant value is stored. -/
def build_template_maps_aux (fm : FeatureModel) (configurations : List Configuration)
    (attributes : List (List (String × String))) :
    List VariationPoint → List (String × TemplateValue) →
    Except String (List (String × TemplateValue))
  | [], maps => .ok maps
  | vp :: rest, maps =>
    if ¬ strContainsChar '.' vp.handler then
      if is_selected_in_a_configuration vp.feature configurations then
        match vp.variants with
        | [] => build_template_maps_aux fm configurations attributes rest
            (dictInsert vp.handler (.bool true) maps)
        | v :: _ =>
          if v.identifier = "-" then
            build_template_maps_aux fm configurations attributes rest
              (dictInsert vp.handler (.bool true) maps)
          else
            match get_variant_value fm vp configurations attributes with
            | .error e => .error e
            | .ok value =>
              build_template_maps_aux fm configurations attributes rest
                (dictInsert vp.handler (.resolved value) maps)
      else
        build_template_maps_aux fm configurations attributes rest maps
    else
      build_template_maps_aux fm configurations attributes rest maps

/-- `build_template_maps` (main.py lines 172-187): iterate over the mapping
model's variation points in insertion order, building the handler-to-value
dict. -/
def build_template_maps (fm : FeatureModel) (mapping_model : List (String × VariationPoint))
    (configurations : List Configuration) (attributes : List (List (String × String))) :
    Except String (List (String × TemplateValue)) :=
  build_template_maps_aux fm configurations attributes (mapping_model.map Prod.snd) []

/-! Claim-side definitions, written after the specification's words, to be
compared with the definitions transcribed from the source above. -/

/-- Spec 4.4 step 1: the guard feature name of a variant is the substring
before the first `.` when the identifier is dotted, else the identifier. -/
def guardName (v : Variant) : String :=
  if strContainsChar '.' v.identifier then sliceBeforeChar '.' v.identifier else v.identifier

/-- Spec 4.4 step 2: the candidate value of a variant is the attribute-table
lookup of the full identifier when dotted, else the variant's own value. -/
def candidateValue (attributes : List (List (String × String))) (v : Variant) : Option String :=
  if strContainsChar '.' v.identifier then get_attribute_value v.identifier attributes
  else v.value

/-- Spec 4.4 steps 3-4: a variant's guard is satisfied iff its guard feature
resolves in the feature model and is selected in some supplied
configuration. -/
def guardSatisfied (fm : FeatureModel) (configurations : List Configuration) (v : Variant) :
    Bool :=
  match get_feature_from_fm (guardName v) fm with
  | .ok f => is_selected_in_a_configuration f configurations
  | .error _ => false

/-- Spec 4.4 step 5, written after the claim: the candidate value of the
first variant in list order whose guard is satisfied; the null value when no
variant's guard is satisfied. -/
def resolveVariantSpec (fm : FeatureModel) (configurations : List Configuration)
    (attributes : List (List (String × String))) (variants : List Variant) : Option String :=
  match variants.find? (guardSatisfied fm configurations) with
  | some v => candidateValue attributes v
  | none => none

/-- The specialization of one variation point for configuration index `i`,
written after the claim: a handler equal to `"Expr"` becomes `"Expr"` at
index 0 and `"Expr" + (i-1)` otherwise, and every `"Expr"` substring of the
variants' values becomes `"Expr" + i`; any other variation point is left
unchanged. -/
def exprSpecializeSpec (i : Nat) (vp : VariationPoint) : VariationPoint :=
  if vp.handler = "Expr" then
    ⟨vp.feature,
     if i = 0 then "Expr" else "Expr" ++ toString (i - 1),
     vp.variants.map (fun v =>
       ⟨v.identifier, v.value.map (fun s => pyReplace s "Expr" ("Expr" ++ toString i))⟩)⟩
  else
    vp

/-- Spec 4.1 selection precedence, written after the claim: an explicit
`automatic` attribute decides selection as `automatic == "selected"`;
otherwise an explicit `manual` attribute decides it as
`manual == "selected"`; otherwise selection is false. -/
def recordSelectedSpec (r : ConfigRecord) : Bool :=
  match r.automatic with
  | some a => a == "selected"
  | none =>
    match r.manual with
    | some m => m == "selected"
    | none => false

/-- The template-map builder written after the claim's four rules: skip a
variation point whose handler contains `.`; skip one whose governing feature
is not selected in any configuration; store the boolean `true` when the
variant list is empty or the first variant's identifier is `"-"`; otherwise
store the result of the variant resolver. No other keys are inserted. -/
def build_template_maps_claim_aux (fm : FeatureModel) (configurations : List Configuration)
    (attributes : List (List (String × String))) :
    List VariationPoint → List (String × TemplateValue) →
    Except String (List (String × TemplateValue))
  | [], maps => .ok maps
  | vp :: rest, maps =>
    if strContainsChar '.' vp.handler then
      build_template_maps_claim_aux fm configurations attributes rest maps
    else if ¬ is_selected_in_a_configuration vp.feature configurations then
      build_template_maps_claim_aux fm configurations attributes rest maps
    else if vp.variants.isEmpty ∨ (vp.variants.head?.map Variant.identifier = some "-") then
      build_template_maps_claim_aux fm configurations attributes rest
        (dictInsert vp.handler (.bool true) maps)
    else
      match get_variant_value fm vp configurations attributes with
      | .error e => .error e
      | .ok value =>
        build_template_maps_claim_aux fm configurations attributes rest
          (dictInsert vp.handler (.resolved value) maps)

/-- The claim's reading of `build_template_maps` as a whole. -/
def build_template_maps_claim (fm : FeatureModel) (mapping_model : List (String × VariationPoint))
    (configurations : List Configuration) (attributes : List (List (String × String))) :
    Except String (List (String × TemplateValue)) :=
  build_template_maps_claim_aux fm configurations attributes (mapping_model.map Prod.snd) []

/-! Helper lemmas about the Python-dict model. -/

theorem dictLookup_dictInsert_self {α β : Type} [DecidableEq α] (k : α) (v : β)
    (d : List (α × β)) : dictLookup k (dictInsert k v d) = some v := by
  induction d with
  | nil => simp [dictInsert, dictLookup]
  | cons kv rest ih =>
    obtain ⟨k', v'⟩ := kv
    by_cases h : k' = k
    · simp [dictInsert, dictLookup, h]
    · simp [dictInsert, dictLookup, h, ih]

theorem dictLookup_dictInsert_ne {α β : Type} [DecidableEq α] {k k' : α} (v : β)
    (d : List (α × β)) (h : k' ≠ k) : dictLookup k (dictInsert k' v d) = dictLookup k d := by
  induction d with
  | nil => simp [dictInsert, dictLookup, h]
  | cons kv rest ih =>
    obtain ⟨k'', v''⟩ := kv
    unfold dictInsert
    by_cases h2 : k'' = k'
    · subst h2
      rw [if_pos rfl]
      simp [dictLookup, h]
    · rw [if_neg h2]
      unfold dictLookup
      by_cases h3 : k'' = k
      · simp [h3]
      · simp [h3, ih]

/-- A successful feature-model lookup returns a feature bearing the looked-up
name. -/
theorem get_feature_from_fm_name {feature_name : String} {fm : FeatureModel} {f : Feature}
    (h : get_feature_from_fm feature_name fm = .ok f) : f.name = feature_name := by
  unfold get_feature_from_fm at h
  cases hfind : (fm : List Feature).find? (fun g => g.name == feature_name) with
  | none => rw [hfind] at h; exact absurd h (by simp)
  | some g =>
    rw [hfind] at h
    have hg := List.find?_some hfind
    cases h
    exact eq_of_beq hg

/-!
Claim C8.
-/

/-- Claim C8: attribute lookup precedence. For every attribute identifier and
every ordered list of attribute sets, `get_attribute_value` returns the value
found in the first attribute set (in supplied order) that contains the
identifier — `List.findSome?` of the per-dict lookup, which by definition
returns the first non-null lookup result — and returns the null value when no
attribute set contains the identifier. -/
theorem C8_attribute_precedence (identifier : String)
    (attributes : List (List (String × String))) :
    get_attribute_value identifier attributes
      = attributes.findSome? (fun d => dictLookup identifier d) := by
  induction attributes with
  | nil => rfl
  | cons d rest ih =>
    rw [List.findSome?_cons]
    unfold get_attribute_value
    cases dictLookup identifier d with
    | none => simpa using ih
    | some v => simp

/-!
Claim C1.
-/

/-- The resolver loop agrees with the spec-side first-match-wins description
whenever every guard feature it may look up resolves in the feature model. -/
theorem get_variant_value_aux_spec (fm : FeatureModel) (configurations : List Configuration)
    (attributes : List (List (String × String))) (variants : List Variant)
    (hwf : ∀ v ∈ variants, (get_feature_from_fm (guardName v) fm).isOk = true) :
    get_variant_value_aux fm configurations attributes variants
      = .ok (resolveVariantSpec fm configurations attributes variants) := by
  induction variants with
  | nil => rfl
  | cons v rest ih =>
    have hv := hwf v (List.mem_cons_self v rest)
    obtain ⟨f, hf⟩ : ∃ f, get_feature_from_fm (guardName v) fm = .ok f := by
      cases hfm : get_feature_from_fm (guardName v) fm with
      | ok f => exact ⟨f, rfl⟩
      | error e => rw [hfm] at hv; exact absurd hv (by simp [Except.isOk, Except.toBool])
    have hguard : guardSatisfied fm configurations v
        = is_selected_in_a_configuration f configurations := by
      unfold guardSatisfied
      rw [hf]
    have ih' := ih (fun w hw => hwf w (List.mem_cons_of_mem v hw))
    by_cases hsel : is_selected_in_a_configuration f configurations = true
    · have hfind : (v :: rest).find? (guardSatisfied fm configurations) = some v :=
        List.find?_cons_of_pos _ (by rw [hguard]; exact hsel)
      by_cases hc : strContainsChar '.' v.identifier = true
      · have hf' : get_feature_from_fm (sliceBeforeChar '.' v.identifier) fm = .ok f := by
          rw [← hf]; simp [guardName, hc]
        simp [get_variant_value_aux, hc, hf', hsel, resolveVariantSpec, hfind, candidateValue]
      · have hf' : get_feature_from_fm v.identifier fm = .ok f := by
          rw [← hf]; simp [guardName, hc]
        simp [get_variant_value_aux, hc, hf', hsel, resolveVariantSpec, hfind, candidateValue]
    · have hfind : (v :: rest).find? (guardSatisfied fm configurations)
          = rest.find? (guardSatisfied fm configurations) :=
        List.find?_cons_of_neg _ (by rw [hguard]; exact hsel)
      by_cases hc : strContainsChar '.' v.identifier = true
      · have hf' : get_feature_from_fm (sliceBeforeChar '.' v.identifier) fm = .ok f := by
          rw [← hf]; simp [guardName, hc]
        simp only [get_variant_value_aux, hc, hf', hsel, resolveVariantSpec, hfind, if_true,
          if_false, Bool.false_eq_true, if_neg hsel]
        simpa [resolveVariantSpec] using ih'
      · have hf' : get_feature_from_fm v.identifier fm = .ok f := by
          rw [← hf]; simp [guardName, hc]
        simp only [get_variant_value_aux, hc, hf', hsel, resolveVariantSpec, hfind, if_true,
          if_false, Bool.false_eq_true, if_neg hsel]
        simpa [resolveVariantSpec] using ih'

/-- Claim C1: variant resolution is first-match-wins in variant list order.
Provided every variant's guard feature resolves in the feature model,
`get_variant_value` returns (without raising) the candidate value of the
first variant in list order whose guard feature is selected in some supplied
configuration, and the null value when no variant's guard is satisfied —
exactly `resolveVariantSpec`, the spec-side description of the algorithm. -/
theorem C1_first_match_wins (fm : FeatureModel) (variation_point : VariationPoint)
    (configurations : List Configuration) (attributes : List (List (String × String)))
    (hwf : ∀ v ∈ variation_point.variants, (get_feature_from_fm (guardName v) fm).isOk = true) :
    get_variant_value fm variation_point configurations attributes
      = .ok (resolveVariantSpec fm configurations attributes variation_point.variants) :=
  get_variant_value_aux_spec fm configurations attributes variation_point.variants hwf

/-- Witness for C1 at the claim's own example: a variation point with
variants guarded by F1 and F2 in that order and a configuration selecting
both features resolves to V1's value `"v1"`, never V2's. -/
theorem C1_first_match_wins_witness :
    get_variant_value [⟨"F1"⟩, ⟨"F2"⟩] ⟨⟨"G"⟩, "H", [⟨"F1", some "v1"⟩, ⟨"F2", some "v2"⟩]⟩
      [⟨[(⟨"F1"⟩, true), (⟨"F2"⟩, true)]⟩] [] = .ok (some "v1") :=
  (C1_first_match_wins [⟨"F1"⟩, ⟨"F2"⟩] ⟨⟨"G"⟩, "H", [⟨"F1", some "v1"⟩, ⟨"F2", some "v2"⟩]⟩
      [⟨[(⟨"F1"⟩, true), (⟨"F2"⟩, true)]⟩] [] (by decide)).trans (by decide)

/-!
Claim C2.
-/

/-- The variant-rewrite loop succeeds and rewrites every value with
`pyReplace` when no variant value is null. -/
theorem replaceVariants_ok (i : Nat) (variants : List Variant)
    (h : ∀ v ∈ variants, v.value ≠ none) :
    replaceVariants i variants
      = .ok (variants.map fun v =>
          ⟨v.identifier, v.value.map fun s => pyReplace s "Expr" ("Expr" ++ toString i)⟩) := by
  induction variants with
  | nil => rfl
  | cons v rest ih =>
    cases hval : v.value with
    | none => exact absurd hval (h v (List.mem_cons_self v rest))
    | some s =>
      have := ih (fun w hw => h w (List.mem_cons_of_mem v hw))
      simp [replaceVariants, hval, this]

/-- The per-variation-point specializer agrees with the spec-side description
when an `"Expr"`-handled point has no null variant values. -/
theorem specializeVP_ok (i : Nat) (vp : VariationPoint)
    (h : vp.handler = "Expr" → ∀ v ∈ vp.variants, v.value ≠ none) :
    specializeVP i vp = .ok (exprSpecializeSpec i vp) := by
  unfold specializeVP exprSpecializeSpec
  by_cases hE : vp.handler = "Expr"
  · rw [if_pos hE, if_pos hE, replaceVariants_ok i vp.variants (h hE)]
    by_cases hi : i = 0
    · simp [hi, hE]
    · simp [hi, hE]
  · rw [if_neg hE, if_neg hE]

/-- The model-level loop maps every keyed variation point through the
specializer when the null-value precondition holds. -/
theorem specializeModel_ok (i : Nat) (mapping_model : List (String × VariationPoint))
    (h : ∀ kv ∈ mapping_model, (kv : String × VariationPoint).2.handler = "Expr" →
      ∀ v ∈ kv.2.variants, v.value ≠ none) :
    specializeModel i mapping_model
      = .ok (mapping_model.map fun kv => (kv.1, exprSpecializeSpec i kv.2)) := by
  induction mapping_model with
  | nil => rfl
  | cons kv rest ih =>
    obtain ⟨k, vp⟩ := kv
    have hvp := specializeVP_ok i vp (h (k, vp) (List.mem_cons_self _ rest))
    have := ih (fun kv2 h2 => h kv2 (List.mem_cons_of_mem _ h2))
    simp [specializeModel, hvp, this]

/-- The enumerated loop produces one specialized copy per configuration,
indexed from the running start index. -/
theorem mapping_model_by_configurations_aux_ok (mapping_model : List (String × VariationPoint))
    (h : ∀ kv ∈ mapping_model, (kv : String × VariationPoint).2.handler = "Expr" →
      ∀ v ∈ kv.2.variants, v.value ≠ none)
    (configurations : List Configuration) :
    ∀ j, mapping_model_by_configurations_aux mapping_model j configurations
      = .ok ((List.range' j configurations.length).map fun i =>
          mapping_model.map fun kv => (kv.1, exprSpecializeSpec i kv.2)) := by
  induction configurations with
  | nil => intro j; rfl
  | cons c rest ih =>
    intro j
    have hm := specializeModel_ok j mapping_model h
    have hr := ih (j + 1)
    simp [mapping_model_by_configurations_aux, hm, hr, List.range'_succ]

/-- Claim C2: Expr renaming determinism. When every variant of every
`"Expr"`-handled variation point has a non-null value, the specializer
succeeds and produces, for each configuration index `i`, the copy of the
mapping model in which each `"Expr"` handler is renamed to `"Expr"` at index
0 and to `"Expr" + (i-1)` otherwise (so indices 0, 1, 2 yield handlers
`"Expr"`, `"Expr0"`, `"Expr1"`), each such point's variant values have every
`"Expr"` substring rewritten to `"Expr" + i` (indices 0, 1, 2 yield
`"Expr0"`, `"Expr1"`, `"Expr2"`), and every variation point whose handler is
not `"Expr"` is left unchanged — all per `exprSpecializeSpec`. -/
theorem C2_expr_renaming (mapping_model : List (String × VariationPoint))
    (configurations : List Configuration)
    (h : ∀ kv ∈ mapping_model, (kv : String × VariationPoint).2.handler = "Expr" →
      ∀ v ∈ kv.2.variants, v.value ≠ none) :
    mapping_model_by_configurations mapping_model configurations
      = .ok ((List.range configurations.length).map fun i =>
          mapping_model.map fun kv => (kv.1, exprSpecializeSpec i kv.2)) := by
  rw [List.range_eq_range']
  exact mapping_model_by_configurations_aux_ok mapping_model h configurations 0

/-- Witness for C2 on a two-point model and three configurations: handlers
become `"Expr"`, `"Expr0"`, `"Expr1"`, the `"Expr"` substrings in the values
become `"Expr0"`, `"Expr1"`, `"Expr2"`, and the `"Op"`-handled point is
untouched. -/
theorem C2_expr_renaming_witness :
    mapping_model_by_configurations
      [("E", ⟨⟨"E"⟩, "Expr", [⟨"A", some "LExpr+RExpr"⟩]⟩), ("F", ⟨⟨"F"⟩, "Op", [⟨"B", some "Expr"⟩]⟩)]
      [⟨[]⟩, ⟨[]⟩, ⟨[]⟩]
    = .ok [
        [("E", ⟨⟨"E"⟩, "Expr", [⟨"A", some "LExpr0+RExpr0"⟩]⟩), ("F", ⟨⟨"F"⟩, "Op", [⟨"B", some "Expr"⟩]⟩)],
        [("E", ⟨⟨"E"⟩, "Expr0", [⟨"A", some "LExpr1+RExpr1"⟩]⟩), ("F", ⟨⟨"F"⟩, "Op", [⟨"B", some "Expr"⟩]⟩)],
        [("E", ⟨⟨"E"⟩, "Expr1", [⟨"A", some "LExpr2+RExpr2"⟩]⟩), ("F", ⟨⟨"F"⟩, "Op", [⟨"B", some "Expr"⟩]⟩)]] :=
  (C2_expr_renaming
      [("E", ⟨⟨"E"⟩, "Expr", [⟨"A", some "LExpr+RExpr"⟩]⟩), ("F", ⟨⟨"F"⟩, "Op", [⟨"B", some "Expr"⟩]⟩)]
      [⟨[]⟩, ⟨[]⟩, ⟨[]⟩] (by decide)).trans (by decide)

/-!
Claim C3.
-/

/-- Counterexample to C3 as stated: two rows share the dotted lookup key
`"F.A"`, yet the resulting variation point holds only the second row's
variant (the second dotted row replaced the first's point with a fresh one,
also discarding its handler `"H1"`), not both variants in row order as the
claim requires. -/
theorem C3_counterexample :
    load_mapping_model [⟨"F"⟩] [⟨"F", "H1", "F.A", "x"⟩, ⟨"F", "H2", "F.A", "y"⟩]
      = .ok [("F.A", ⟨⟨"F"⟩, "H2", [⟨"F.A", some "y"⟩]⟩)] ∧
    load_mapping_model [⟨"F"⟩] [⟨"F", "H1", "F.A", "x"⟩, ⟨"F", "H2", "F.A", "y"⟩]
      ≠ .ok [("F.A", ⟨⟨"F"⟩, "H1", [⟨"F.A", some "x"⟩, ⟨"F.A", some "y"⟩]⟩)] := by
  constructor
  · decide
  · decide

/-- Claim C3 as amended: a row whose `variantIdentifier` contains `.` uses
the identifier itself as lookup key but always creates a fresh
`VariationPoint` under that key, replacing any existing one — so two dotted
rows sharing a key yield one point holding only the later row's variant (and
the later row's handler). A row without `.` uses `variationPointFeature` as
key, reusing the point across rows that share it, each row's variant being
appended in row order (and the first row's handler kept). -/
theorem C3_amended_row_keying (fm : FeatureModel) (feat : Feature)
    (ha hb idD idA idB va vb fname : String)
    (hf : get_feature_from_fm fname fm = .ok feat) :
    (strContainsChar '.' idD = true →
      load_mapping_model fm [⟨fname, ha, idD, va⟩, ⟨fname, hb, idD, vb⟩]
        = .ok [(idD, ⟨feat, hb, [⟨idD, if vb = "-" then none else some vb⟩]⟩)]) ∧
    (strContainsChar '.' idA = false → strContainsChar '.' idB = false →
      load_mapping_model fm [⟨fname, ha, idA, va⟩, ⟨fname, hb, idB, vb⟩]
        = .ok [(fname, ⟨feat, ha,
            [⟨idA, if va = "-" then none else some va⟩,
             ⟨idB, if vb = "-" then none else some vb⟩]⟩)]) := by
  constructor
  · intro hc
    simp [load_mapping_model, load_mapping_model_aux, hf, hc, dictInsert, dictLookup]
  · intro hcA hcB
    simp [load_mapping_model, load_mapping_model_aux, hf, hcA, hcB, dictInsert, dictLookup]

/-- Witness for the amended C3: a dotted pair of rows keeps only the second
variant, a non-dotted pair accumulates both in row order. -/
theorem C3_amended_row_keying_witness :
    load_mapping_model [⟨"F"⟩] [⟨"F", "H1", "F.A", "x"⟩, ⟨"F", "H2", "F.A", "y"⟩]
      = .ok [("F.A", ⟨⟨"F"⟩, "H2", [⟨"F.A", some "y"⟩]⟩)] ∧
    load_mapping_model [⟨"F"⟩] [⟨"F", "H1", "A", "x"⟩, ⟨"F", "H2", "B", "-"⟩]
      = .ok [("F", ⟨⟨"F"⟩, "H1", [⟨"A", some "x"⟩, ⟨"B", none⟩]⟩)] := by
  have h := C3_amended_row_keying [⟨"F"⟩] ⟨"F"⟩ "H1" "H2" "F.A" "A" "B" "x" "y" "F" (by decide)
  have h2 := C3_amended_row_keying [⟨"F"⟩] ⟨"F"⟩ "H1" "H2" "F.A" "A" "B" "x" "-" "F" (by decide)
  exact ⟨(h.1 (by decide)).trans (by decide), (h2.2 (by decide) (by decide)).trans (by decide)⟩

/-!
Claim C4.
-/

/-- Counterexample to C4 as stated: with feature `F` selected and `G`
deselected, a variation point whose first variant (from a `"-"` row) has a
null value and a satisfied guard resolves to exactly the same result as a
variation point in which no variant's guard is satisfied — both return the
null value, so the resolved result is not distinct from "no match". -/
theorem C4_counterexample :
    get_variant_value [⟨"F"⟩, ⟨"G"⟩] ⟨⟨"F"⟩, "H", [⟨"F", none⟩]⟩
        [⟨[(⟨"F"⟩, true), (⟨"G"⟩, false)]⟩] []
      = get_variant_value [⟨"F"⟩, ⟨"G"⟩] ⟨⟨"F"⟩, "H", [⟨"G", some "x"⟩]⟩
        [⟨[(⟨"F"⟩, true), (⟨"G"⟩, false)]⟩] [] ∧
    get_variant_value [⟨"F"⟩, ⟨"G"⟩] ⟨⟨"F"⟩, "H", [⟨"F", none⟩]⟩
        [⟨[(⟨"F"⟩, true), (⟨"G"⟩, false)]⟩] []
      = .ok none := by
  constructor
  · decide
  · decide

/-- Claim C4 as amended: a mapping-model row with `VariantValue = "-"` is
normalized to the null value, and when a variation point's first variant
carries that null value and its guard is satisfied, `get_variant_value`
returns successfully (no exception) with the null value — but that result
coincides with (is not distinct from) the null value returned when no
variant's guard is satisfied. -/
theorem C4_amended_null_sentinel (fm : FeatureModel) (pfeat gfeat feat : Feature)
    (pfname handler fname : String) (rest : List Variant)
    (configurations : List Configuration) (attributes : List (List (String × String)))
    (hdot : strContainsChar '.' fname = false)
    (hpf : get_feature_from_fm pfname fm = .ok pfeat)
    (hgf : get_feature_from_fm fname fm = .ok feat)
    (hsel : is_selected_in_a_configuration feat configurations = true) :
    load_mapping_model fm [⟨pfname, handler, fname, "-"⟩]
      = .ok [(pfname, ⟨pfeat, handler, [⟨fname, none⟩]⟩)] ∧
    get_variant_value fm ⟨gfeat, handler, ⟨fname, none⟩ :: rest⟩ configurations attributes
      = .ok none := by
  constructor
  · simp [load_mapping_model, load_mapping_model_aux, hdot, hpf, dictInsert, dictLookup]
  · simp [get_variant_value, get_variant_value_aux, hdot, hgf, hsel]

/-- Witness for the amended C4: a single `"-"` row loads to a null-valued
variant, and resolving it under a configuration selecting its guard returns
the null value without error. -/
theorem C4_amended_null_sentinel_witness :
    load_mapping_model [⟨"F"⟩] [⟨"F", "H", "F", "-"⟩]
      = .ok [("F", ⟨⟨"F"⟩, "H", [⟨"F", none⟩]⟩)] ∧
    get_variant_value [⟨"F"⟩] ⟨⟨"F"⟩, "H", [⟨"F", none⟩]⟩ [⟨[(⟨"F"⟩, true)]⟩] []
      = .ok none :=
  C4_amended_null_sentinel [⟨"F"⟩] ⟨"F"⟩ ⟨"F"⟩ ⟨"F"⟩ "F" "H" "F" []
    [⟨[(⟨"F"⟩, true)]⟩] [] (by decide) (by decide) (by decide) (by decide)

/-!
Claim C6.
-/

/-- The two template-map loops agree on every variation-point list and every
accumulator. -/
theorem build_template_maps_aux_eq_claim (fm : FeatureModel)
    (configurations : List Configuration) (attributes : List (List (String × String))) :
    ∀ (vps : List VariationPoint) (maps : List (String × TemplateValue)),
    build_template_maps_aux fm configurations attributes vps maps
      = build_template_maps_claim_aux fm configurations attributes vps maps := by
  intro vps
  induction vps with
  | nil => intro maps; rfl
  | cons vp rest ih =>
    intro maps
    by_cases hdot : strContainsChar '.' vp.handler = true
    · simp [build_template_maps_aux, build_template_maps_claim_aux, hdot, ih]
    · by_cases hsel : is_selected_in_a_configuration vp.feature configurations = true
      · cases hvar : vp.variants with
        | nil =>
          simp [build_template_maps_aux, build_template_maps_claim_aux, hdot, hsel, hvar, ih]
        | cons v vs =>
          by_cases hid : v.identifier = "-"
          · simp [build_template_maps_aux, build_template_maps_claim_aux, hdot, hsel, hvar,
              hid, ih]
          · cases hval : get_variant_value fm vp configurations attributes with
            | error e =>
              simp [build_template_maps_aux, build_template_maps_claim_aux, hdot, hsel, hvar,
                hid, hval]
            | ok value =>
              simp [build_template_maps_aux, build_template_maps_claim_aux, hdot, hsel, hvar,
                hid, hval, ih]
      · simp [build_template_maps_aux, build_template_maps_claim_aux, hdot, hsel, ih]

/-- Claim C6: for every mapping model, configurations and attribute sets, the
template-map builder behaves exactly as the claim's four rules describe — it
skips a variation point whose handler contains `.`, skips one whose
governing feature is not selected in any supplied configuration, maps the
handler to the boolean `true` when the variant list is empty or its first
variant's identifier is the literal `"-"`, and otherwise maps the handler to
the result of the variant resolver; no other keys appear in the output
map. -/
theorem C6_template_map_builder (fm : FeatureModel)
    (mapping_model : List (String × VariationPoint)) (configurations : List Configuration)
    (attributes : List (List (String × String))) :
    build_template_maps fm mapping_model configurations attributes
      = build_template_maps_claim fm mapping_model configurations attributes :=
  build_template_maps_aux_eq_claim fm configurations attributes
    (mapping_model.map Prod.snd) []

/-!
Claim C7.
-/

/-- A successful `Except` computation yields a value. -/
theorem except_isOk_exists {α : Type} {x : Except String α} (h : x.isOk = true) :
    ∃ a, x = .ok a := by
  cases x with
  | ok a => exact ⟨a, rfl⟩
  | error e => exact absurd h (by simp [Except.isOk, Except.toBool])

/-- Records whose names all differ from `k.name` never touch the dict entry
of feature `k`. -/
theorem parse_configuration_aux_lookup_frame (fm : FeatureModel) (k : Feature) :
    ∀ (records : List ConfigRecord) (acc res : List (Feature × Bool)),
    parse_configuration_aux fm records acc = .ok res →
    (∀ r ∈ records, r.name ≠ k.name) →
    dictLookup k res = dictLookup k acc := by
  intro records
  induction records with
  | nil =>
    intro acc res h _
    cases h
    rfl
  | cons r0 rest ih =>
    intro acc res h hnames
    cases hlf : get_feature_from_fm r0.name fm with
    | error e => simp [parse_configuration_aux, hlf] at h
    | ok f0 =>
      simp only [parse_configuration_aux, hlf] at h
      have hres := ih _ _ h (fun r' hr' => hnames r' (List.mem_cons_of_mem r0 hr'))
      rw [hres]
      apply dictLookup_dictInsert_ne
      intro hfk
      exact hnames r0 (List.mem_cons_self r0 rest)
        (by rw [← get_feature_from_fm_name hlf, hfk])

/-- When every record's feature resolves, the parsing loop succeeds. -/
theorem parse_configuration_aux_total (fm : FeatureModel) :
    ∀ (records : List ConfigRecord) (acc : List (Feature × Bool)),
    (∀ r ∈ records, (get_feature_from_fm r.name fm).isOk = true) →
    ∃ res, parse_configuration_aux fm records acc = .ok res := by
  intro records
  induction records with
  | nil => intro acc _; exact ⟨acc, rfl⟩
  | cons r0 rest ih =>
    intro acc hres
    obtain ⟨f0, hf0⟩ := except_isOk_exists (hres r0 (List.mem_cons_self r0 rest))
    obtain ⟨res, hr⟩ := ih (dictInsert f0 (match r0.automatic with
      | some a => a == "selected"
      | none => match r0.manual with
        | some m => m == "selected"
        | none => false) acc)
      (fun r' hr' => hres r' (List.mem_cons_of_mem r0 hr'))
    exact ⟨res, by simp only [parse_configuration_aux, hf0]; exact hr⟩

/-- The dict built by the parsing loop stores, for each record with a
distinct name, exactly the precedence-computed selection boolean under the
record's resolved feature. -/
theorem parse_configuration_aux_lookup (fm : FeatureModel) :
    ∀ (records : List ConfigRecord) (acc res : List (Feature × Bool)),
    parse_configuration_aux fm records acc = .ok res →
    (records.map ConfigRecord.name).Nodup →
    ∀ r ∈ records, ∀ f, get_feature_from_fm r.name fm = .ok f →
    dictLookup f res = some (recordSelectedSpec r) := by
  intro records
  induction records with
  | nil =>
    intro acc res _ _ r hr
    exact absurd hr (List.not_mem_nil r)
  | cons r0 rest ih =>
    intro acc res h hnodup r hr f hf
    rw [List.map_cons] at hnodup
    obtain ⟨hnm, hnd⟩ := List.nodup_cons.mp hnodup
    cases hlf : get_feature_from_fm r0.name fm with
    | error e => simp [parse_configuration_aux, hlf] at h
    | ok f0 =>
      simp only [parse_configuration_aux, hlf] at h
      rcases List.mem_cons.mp hr with rfl | hr'
      · have hff : f0 = f := by rw [hlf] at hf; exact Except.ok.inj hf
        subst hff
        have hframe := parse_configuration_aux_lookup_frame fm f0 rest _ _ h
          (fun r' hr' hr'name => hnm (by
            rw [get_feature_from_fm_name hlf] at hr'name
            exact hr'name ▸ List.mem_map_of_mem ConfigRecord.name hr'))
        rw [hframe, dictLookup_dictInsert_self]
        rfl
      · exact ih _ _ h hnd r hr' f hf

/-- Claim C7: configuration-parsing selection precedence. When every
record's feature name resolves in the feature model and the record names are
distinct, parsing succeeds and the resulting configuration marks each
record's feature selected exactly per the precedence: an explicit
`automatic` attribute decides selection as `automatic == "selected"`, else
an explicit `manual` attribute decides it as `manual == "selected"`, else
selection is false (`recordSelectedSpec`). -/
theorem C7_selection_precedence (records : List ConfigRecord) (fm : FeatureModel)
    (hres : ∀ r ∈ records, (get_feature_from_fm r.name fm).isOk = true)
    (hnodup : (records.map ConfigRecord.name).Nodup) :
    ∃ cfg, parse_configuration records fm = .ok cfg ∧
      ∀ r ∈ records, ∀ f, get_feature_from_fm r.name fm = .ok f →
        dictLookup f cfg.elements = some (recordSelectedSpec r) := by
  obtain ⟨res, hok⟩ := parse_configuration_aux_total fm records [] hres
  refine ⟨⟨res⟩, ?_, ?_⟩
  · unfold parse_configuration
    rw [hok]
  · intro r hr f hf
    exact parse_configuration_aux_lookup fm records [] res hok hnodup r hr f hf

/-- Witness for C7 on four records: an `automatic="selected"` record is
selected, a `manual="selected"` record is selected, a record with neither is
deselected, and a record with `automatic="x"` is deselected even though its
`manual` says selected (automatic wins). -/
theorem C7_selection_precedence_witness :
    ∃ cfg, parse_configuration
        [⟨"A", some "selected", none⟩, ⟨"B", none, some "selected"⟩,
         ⟨"C", none, none⟩, ⟨"D", some "x", some "selected"⟩]
        [⟨"A"⟩, ⟨"B"⟩, ⟨"C"⟩, ⟨"D"⟩] = .ok cfg ∧
      dictLookup ⟨"A"⟩ cfg.elements = some true ∧
      dictLookup ⟨"B"⟩ cfg.elements = some true ∧
      dictLookup ⟨"C"⟩ cfg.elements = some false ∧
      dictLookup ⟨"D"⟩ cfg.elements = some false := by
  obtain ⟨cfg, hcfg, hall⟩ := C7_selection_precedence
    [⟨"A", some "selected", none⟩, ⟨"B", none, some "selected"⟩,
     ⟨"C", none, none⟩, ⟨"D", some "x", some "selected"⟩]
    [⟨"A"⟩, ⟨"B"⟩, ⟨"C"⟩, ⟨"D"⟩] (by decide) (by decide)
  refine ⟨cfg, hcfg,
    (hall ⟨"A", some "selected", none⟩ (by decide) ⟨"A"⟩ (by decide)).trans (by decide),
    (hall ⟨"B", none, some "selected"⟩ (by decide) ⟨"B"⟩ (by decide)).trans (by decide),
    (hall ⟨"C", none, none⟩ (by decide) ⟨"C"⟩ (by decide)).trans (by decide),
    (hall ⟨"D", some "x", some "selected"⟩ (by decide) ⟨"D"⟩ (by decide)).trans (by decide)⟩

/-!
Claim C9.
-/

/-- If a name matches no feature, the parsing loop over records containing
that name raises at the point of lookup and the error propagates. -/
theorem parse_configuration_aux_error (fm : FeatureModel) (name : String)
    (herr : ∀ f ∈ (fm : List Feature), f.name ≠ name) :
    ∀ (records : List ConfigRecord) (acc : List (Feature × Bool)),
    (∃ r ∈ records, r.name = name) →
    ∃ e, parse_configuration_aux fm records acc = .error e := by
  intro records
  induction records with
  | nil =>
    rintro acc ⟨r, hr, _⟩
    exact absurd hr (List.not_mem_nil r)
  | cons r0 rest ih =>
    intro acc hex
    cases hlf : get_feature_from_fm r0.name fm with
    | error e => exact ⟨e, by simp [parse_configuration_aux, hlf]⟩
    | ok f0 =>
      have hr0 : r0.name ≠ name := by
        intro heq
        have hname := get_feature_from_fm_name hlf
        have hmem : f0 ∈ (fm : List Feature) := by
          unfold get_feature_from_fm at hlf
          cases hfind : (fm : List Feature).find? (fun g => g.name == r0.name) with
          | none => rw [hfind] at hlf; exact absurd hlf (by simp)
          | some g => rw [hfind] at hlf; cases hlf; exact List.mem_of_find?_eq_some hfind
        exact herr f0 hmem (by rw [hname, heq])
      rcases hex with ⟨r, hrmem, hrname⟩
      rcases List.mem_cons.mp hrmem with rfl | hmem'
      · exact absurd hrname hr0
      · obtain ⟨e, he⟩ := ih (dictInsert f0 (match r0.automatic with
          | some a => a == "selected"
          | none => match r0.manual with
            | some m => m == "selected"
            | none => false) acc) ⟨r, hmem', hrname⟩
        exact ⟨e, by simp only [parse_configuration_aux, hlf]; exact he⟩

/-- Claim C9: unknown-feature lookups fail fatally. For every feature name
with no match in the feature model, the lookup itself returns an error
rather than a value, and parsing any configuration whose records mention
that name propagates that error immediately (the whole parse returns the
error; no recovery or continuation). -/
theorem C9_unknown_feature_failure (name : String) (fm : FeatureModel)
    (h : ∀ f ∈ (fm : List Feature), f.name ≠ name) :
    (∃ e, get_feature_from_fm name fm = .error e) ∧
    ∀ records : List ConfigRecord, (∃ r ∈ records, r.name = name) →
      ∃ e, parse_configuration records fm = .error e := by
  constructor
  · have hfind : (fm : List Feature).find? (fun f => f.name == name) = none :=
      List.find?_eq_none.mpr (fun f hf => by simp [h f hf])
    exact ⟨_, by unfold get_feature_from_fm; rw [hfind]⟩
  · intro records hex
    obtain ⟨e, he⟩ := parse_configuration_aux_error fm name h records [] hex
    exact ⟨e, by unfold parse_configuration; rw [he]⟩

/-- Witness for C9: the name `"X"` is absent from a feature model holding
only `"F"`; the direct lookup errors and so does parsing a configuration
file that references `"X"`. -/
theorem C9_unknown_feature_failure_witness :
    (∃ e, get_feature_from_fm "X" [⟨"F"⟩] = .error e) ∧
    (∃ e, parse_configuration [⟨"X", some "selected", none⟩] [⟨"F"⟩] = .error e) := by
  have h := C9_unknown_feature_failure "X" [⟨"F"⟩] (by decide)
  exact ⟨h.1, h.2 [⟨"X", some "selected", none⟩]
    ⟨⟨"X", some "selected", none⟩, List.mem_cons_self _ _, rfl⟩⟩

/-!
Claim C10.
-/

/-- The variant-rewrite loop raises as soon as some variant value is null. -/
theorem replaceVariants_error (i : Nat) :
    ∀ variants : List Variant, (∃ v ∈ variants, v.value = none) →
    ∃ e, replaceVariants i variants = .error e := by
  intro variants
  induction variants with
  | nil =>
    rintro ⟨v, hv, _⟩
    exact absurd hv (List.not_mem_nil v)
  | cons v rest ih =>
    rintro ⟨w, hw, hwval⟩
    cases hval : v.value with
    | none =>
      exact ⟨"AttributeError: NoneType object has no attribute replace",
        by simp [replaceVariants, hval]⟩
    | some s =>
      have hwrest : w ∈ rest := by
        rcases List.mem_cons.mp hw with rfl | h'
        · rw [hval] at hwval; exact absurd hwval (by simp)
        · exact h'
      obtain ⟨e, he⟩ := ih ⟨w, hwrest, hwval⟩
      exact ⟨e, by simp [replaceVariants, hval, he]⟩

/-- An `"Expr"`-handled variation point with a null-valued variant makes the
specializer raise. -/
theorem specializeVP_error (i : Nat) (vp : VariationPoint) (hE : vp.handler = "Expr")
    (hbad : ∃ v ∈ vp.variants, v.value = none) :
    ∃ e, specializeVP i vp = .error e := by
  obtain ⟨e, he⟩ := replaceVariants_error i vp.variants hbad
  exact ⟨e, by simp [specializeVP, hE, he]⟩

/-- The model-level loop raises whenever some keyed variation point has
handler `"Expr"` and a null-valued variant. -/
theorem specializeModel_error (i : Nat) :
    ∀ mapping_model : List (String × VariationPoint),
    (∃ kv ∈ mapping_model, (kv : String × VariationPoint).2.handler = "Expr" ∧
      ∃ v ∈ kv.2.variants, v.value = none) →
    ∃ e, specializeModel i mapping_model = .error e := by
  intro mapping_model
  induction mapping_model with
  | nil =>
    rintro ⟨kv, hkv, _⟩
    exact absurd hkv (List.not_mem_nil kv)
  | cons kv rest ih =>
    rintro ⟨kw, hkw, hE, hbad⟩
    obtain ⟨k, vp⟩ := kv
    cases hsp : specializeVP i vp with
    | error e => exact ⟨e, by simp [specializeModel, hsp]⟩
    | ok vp' =>
      have hkwrest : kw ∈ rest := by
        rcases List.mem_cons.mp hkw with rfl | h'
        · obtain ⟨e, he⟩ := specializeVP_error i vp hE hbad
          rw [hsp] at he
          exact absurd he (by simp)
        · exact h'
      obtain ⟨e, he⟩ := ih ⟨kw, hkwrest, hE, hbad⟩
      exact ⟨e, by simp [specializeModel, hsp, he]⟩

/-- Claim C10: the specializer is total only when every variant of every
`"Expr"`-handled variation point has a non-null value. If some such point
contains a variant whose value is the null sentinel (a mapping row with
`VariantValue = "-"`), `mapping_model_by_configurations` raises (Python calls
`.replace` on `None`) instead of producing specialized models, for any
non-empty configuration list — the error fires already at configuration
index 0. -/
theorem C10_null_value_specializer (mapping_model : List (String × VariationPoint))
    (configurations : List Configuration) (hne : configurations ≠ [])
    (hbad : ∃ kv ∈ mapping_model, (kv : String × VariationPoint).2.handler = "Expr" ∧
      ∃ v ∈ kv.2.variants, v.value = none) :
    ∃ e, mapping_model_by_configurations mapping_model configurations = .error e := by
  cases configurations with
  | nil => exact absurd rfl hne
  | cons c rest =>
    obtain ⟨e, he⟩ := specializeModel_error 0 mapping_model hbad
    exact ⟨e, by
      simp [mapping_model_by_configurations, mapping_model_by_configurations_aux, he]⟩

/-- Witness for C10: a one-point model whose `"Expr"`-handled point carries a
null-valued variant makes the specializer raise even for a single
configuration (index 0). -/
theorem C10_null_value_specializer_witness :
    ∃ e, mapping_model_by_configurations [("E", ⟨⟨"E"⟩, "Expr", [⟨"A", none⟩]⟩)] [⟨[]⟩]
      = .error e :=
  C10_null_value_specializer [("E", ⟨⟨"E"⟩, "Expr", [⟨"A", none⟩]⟩)] [⟨[]⟩]
    (by decide)
    ⟨("E", ⟨⟨"E"⟩, "Expr", [⟨"A", none⟩]⟩), List.mem_cons_self _ _, rfl,
      ⟨"A", none⟩, List.mem_cons_self _ _, rfl⟩

end RecConfig
